import Mathlib

/-
Verification of the RupeeOne personal finance tracker (src/rupeeone_v0.7.py)
against its natural-language specification.

The development shallowly embeds the data-access layer (class DatabaseManager)
and the two aggregation routines the spec describes.  The SQLite store is
modelled as a pure record of four tables; every SQL statement is rendered as a
pure function on that record, following the semantics of SQLite 3:

  * TEXT comparison ("date >= ?", ORDER BY date) is bytewise UTF-8 comparison,
    which coincides with lexicographic comparison of code points (function
    lexLe below).
  * LIKE with a pattern of the shape percent-keyword-percent is ASCII
    case-insensitive substring containment (function likeContains).
  * STRFTIME on the application's canonical YYYY-MM-DD date strings extracts
    the zero-padded year / year-month prefix; on a string that is not a valid
    date it yields NULL, so an equality filter against it fails.
  * An UPDATE of the UNIQUE column categories.name raises IntegrityError
    exactly when a row is actually rewritten to a name that a different row
    already carries; update_category rolls the transaction back in that case.
  * REAL amounts are modelled as exact rationals (Rat); the claims under
    verification are about grouping, filtering and ordering, not about
    floating-point rounding.

The connection-failure branches of the Python code (self.cursor is None, or a
generic sqlite3.Error from the driver) are outside the model: the model is the
connected, non-failing store, which is the state the specification describes.
-/

namespace RupeeOne

/-- Bytewise (equivalently, code-point lexicographic) string comparison on the
underlying character lists, as SQLite's default BINARY collation performs on
TEXT values.  UTF-8 byte order agrees with code-point order. -/
def lexLe : List Char → List Char → Bool
  | [], _ => true
  | _ :: _, [] => false
  | a :: as, b :: bs => if a = b then lexLe as bs else decide (a.toNat < b.toNat)

/-- SQL comparison "a <= b" on two TEXT values. -/
def dateLe (a b : String) : Bool := lexLe a.data b.data

/-- Python truthiness of an optional string argument: present and non-empty.
Every filter in fetch_expenses / fetch_income is guarded by "if arg:". -/
def truthy : Option String → Bool
  | none => false
  | some s => s != ""

/-- Does the character list start with the given pattern list? -/
def lstarts : List Char → List Char → Bool
  | _, [] => true
  | [], _ :: _ => false
  | a :: as, b :: bs => a == b && lstarts as bs

/-- Does the character list contain the given pattern list as a contiguous
sublist? -/
def lhas : List Char → List Char → Bool
  | [], pat => pat.isEmpty
  | a :: as, pat => lstarts (a :: as) pat || lhas as pat

/-- SQLite "value LIKE percent-pat-percent": ASCII case-insensitive substring
containment.  (The model treats the keyword as literal text; the claims only
exercise patterns without the LIKE metacharacters.) -/
def likeContains (value pat : String) : Bool :=
  lhas (value.data.map Char.toLower) (pat.data.map Char.toLower)

/-- Numeric value of a decimal digit character. -/
def dval (c : Char) : Nat := c.toNat - 48

/-- Gregorian leap-year test, as datetime.strptime validates dates. -/
def isLeapYear (y : Nat) : Bool := (y % 4 == 0 && y % 100 != 0) || y % 400 == 0

/-- Number of days of month m in year y. -/
def daysInMonth (y m : Nat) : Nat :=
  if m == 2 then (if isLeapYear y then 29 else 28)
  else if m == 4 || m == 6 || m == 9 || m == 11 then 30
  else 31

/-- Embeds datetime.strptime(s, "%Y-%m-%d") on the application's canonical
zero-padded date strings: returns (year, month, day) for a well-formed
calendar date and none where strptime raises ValueError. -/
def parseDate (s : String) : Option (Nat × Nat × Nat) :=
  match s.data with
  | [y1, y2, y3, y4, h1, m1, m2, h2, d1, d2] =>
    if y1.isDigit && y2.isDigit && y3.isDigit && y4.isDigit && h1 == '-' &&
       m1.isDigit && m2.isDigit && h2 == '-' && d1.isDigit && d2.isDigit then
      let y := ((dval y1 * 10 + dval y2) * 10 + dval y3) * 10 + dval y4
      let mo := dval m1 * 10 + dval m2
      let da := dval d1 * 10 + dval d2
      if 1 ≤ y && 1 ≤ mo && mo ≤ 12 && 1 ≤ da && da ≤ daysInMonth y mo then
        some (y, mo, da)
      else none
    else none
  | _ => none

/-- Is the string a valid canonical YYYY-MM-DD date? -/
def validDate (s : String) : Bool := (parseDate s).isSome

/-- The four-character year prefix of a canonical date string, which is what
SQLite's STRFTIME with format %Y returns on such a value. -/
def yearKey (d : String) : String := String.mk (d.data.take 4)

/-- SQLite STRFTIME %Y: the zero-padded year of a valid date, NULL otherwise. -/
def sqlYear (d : String) : Option String :=
  if validDate d then some (yearKey d) else none

/-- SQLite STRFTIME %Y-%m: the seven-character year-month prefix of a valid
date, NULL otherwise. -/
def sqlYearMonth (d : String) : Option String :=
  if validDate d then some (String.mk (d.data.take 7)) else none

/-- One row of the expenses table. -/
structure Expense where
  id : Nat
  date : String
  category : String
  amount : Rat
  description : String
deriving DecidableEq

/-- One row of the income table. -/
structure IncomeRow where
  id : Nat
  date : String
  source : String
  amount : Rat
  description : String
deriving DecidableEq

/-- The persistent store: the four tables of the SQLite file.  budgets pairs a
month_year key (UNIQUE) with a budget_amount; categories holds the UNIQUE
names.  The nextExpenseId / nextIncomeId counters stand for the AUTOINCREMENT
sequences. -/
structure DB where
  expenses : List Expense
  income : List IncomeRow
  budgets : List (String × Rat)
  categories : List String
  nextExpenseId : Nat
  nextIncomeId : Nat
deriving DecidableEq

/-- Sort a list of rows descending by a date projection (SQL ORDER BY date
DESC). -/
def sortByDateDesc {α : Type} (f : α → String) (l : List α) : List α :=
  List.insertionSort (fun a b => dateLe (f b) (f a) = true) l

/-- DatabaseManager.add_expense: INSERT one row into expenses and report
success. -/
def add_expense (db : DB) (date category : String) (amount : Rat)
    (description : String) : Bool × DB :=
  (true, { db with
    expenses := db.expenses ++
      [⟨db.nextExpenseId, date, category, amount, description⟩],
    nextExpenseId := db.nextExpenseId + 1 })

/-- The WHERE clause DatabaseManager.fetch_expenses builds: each truthy
argument ANDs one predicate; category is skipped when it equals the sentinel
"All Categories" and year when it equals "All Years". -/
def expenseMatches (start_date end_date category year month_year keyword :
    Option String) (e : Expense) : Bool :=
  (match start_date with
   | some s => if s != "" then dateLe s e.date else true
   | none => true) &&
  (match end_date with
   | some s => if s != "" then dateLe e.date s else true
   | none => true) &&
  (match category with
   | some c => if c != "" && c != "All Categories" then e.category == c else true
   | none => true) &&
  (match year with
   | some y => if y != "" && y != "All Years" then sqlYear e.date == some y else true
   | none => true) &&
  (match month_year with
   | some m => if m != "" then sqlYearMonth e.date == some m else true
   | none => true) &&
  (match keyword with
   | some k => if k != "" then
       likeContains e.description k || likeContains e.category k
     else true
   | none => true)

/-- DatabaseManager.fetch_expenses: SELECT with the optional filters, ORDER BY
date DESC. -/
def fetch_expenses (db : DB)
    (start_date end_date category year month_year keyword : Option String) :
    List Expense :=
  sortByDateDesc Expense.date
    (db.expenses.filter
      (expenseMatches start_date end_date category year month_year keyword))

/-- DatabaseManager.update_expense: UPDATE every expense row whose id matches
(at most one, id being the primary key), and report success whether or not any
row matched. -/
def update_expense (db : DB) (expense_id : Nat) (date category : String)
    (amount : Rat) (description : String) : Bool × DB :=
  (true, { db with
    expenses := db.expenses.map (fun e =>
      if e.id = expense_id then
        { e with date := date, category := category, amount := amount,
                 description := description }
      else e) })

/-- DatabaseManager.get_monthly_budget: the budget_amount of the row keyed by
month_year, or 0.0 when no such row exists. -/
def get_monthly_budget (db : DB) (month_year : String) : Rat :=
  match db.budgets.find? (fun b => b.1 == month_year) with
  | some b => b.2
  | none => 0

/-- The WHERE clause DatabaseManager.fetch_income builds.  Unlike the expense
query, the source filter is a LIKE substring match and carries no sentinel,
and the year filter has no "All Years" guard. -/
def incomeMatches (start_date end_date source year month_year keyword :
    Option String) (e : IncomeRow) : Bool :=
  (match start_date with
   | some s => if s != "" then dateLe s e.date else true
   | none => true) &&
  (match end_date with
   | some s => if s != "" then dateLe e.date s else true
   | none => true) &&
  (match source with
   | some s => if s != "" then likeContains e.source s else true
   | none => true) &&
  (match year with
   | some y => if y != "" then sqlYear e.date == some y else true
   | none => true) &&
  (match month_year with
   | some m => if m != "" then sqlYearMonth e.date == some m else true
   | none => true) &&
  (match keyword with
   | some k => if k != "" then
       likeContains e.description k || likeContains e.source k
     else true
   | none => true)

/-- DatabaseManager.fetch_income: SELECT with the optional filters, ORDER BY
date DESC. -/
def fetch_income (db : DB)
    (start_date end_date source year month_year keyword : Option String) :
    List IncomeRow :=
  sortByDateDesc IncomeRow.date
    (db.income.filter
      (incomeMatches start_date end_date source year month_year keyword))

/-- DatabaseManager.update_category: inside one transaction, UPDATE the
category row from old_name to new_name and cascade to every expense row.
Rewriting a categories.name row to a value another row already carries raises
IntegrityError and the transaction is rolled back, so the call reports the
duplicate and leaves the store untouched; in every other case both statements
commit.  (categories.name is UNIQUE, so the collision happens exactly when
old_name names a row, new_name names a different row.) -/
def update_category (db : DB) (old_name new_name : String) : Bool × DB :=
  if old_name ∈ db.categories ∧ new_name ∈ db.categories ∧ old_name ≠ new_name
  then (false, db)
  else (true, { db with
    categories := db.categories.map (fun n => if n = old_name then new_name else n),
    expenses := db.expenses.map (fun e =>
      if e.category = old_name then { e with category := new_name } else e) })

/-- DatabaseManager.delete_category: inside one transaction, UPDATE every
expense row of the category to "Uncategorized", then DELETE the category row. -/
def delete_category (db : DB) (category_name : String) : Bool × DB :=
  (true, { db with
    expenses := db.expenses.map (fun e =>
      if e.category = category_name then { e with category := "Uncategorized" }
      else e),
    categories := db.categories.filter (fun n => n != category_name) })

/-- One step of the duplicate-discarding scan SQLite performs for SELECT
DISTINCT: keep the incoming row only when no already-kept row shares its year
value. -/
def yearStep {α : Type} (f : α → String) (acc : List α) (e : α) : List α :=
  if acc.any (fun r => yearKey (f r) == yearKey (f e)) then acc
  else acc ++ [e]

/-- The representative rows SQLite keeps while evaluating SELECT DISTINCT
STRFTIME on the expenses scan: the first-scanned row of each distinct year.
The engine then orders these representatives by their full date. -/
def yearReps {α : Type} (f : α → String) (l : List α) : List α :=
  l.foldl (yearStep f) []

/-- DatabaseManager.get_all_expense_years: SELECT DISTINCT STRFTIME year FROM
expenses ORDER BY date DESC, as SQLite evaluates it — deduplicate the scan on
the year value, then sort the kept representative rows by date descending and
emit their years. -/
def get_all_expense_years (db : DB) : List String :=
  (sortByDateDesc Expense.date (yearReps Expense.date db.expenses)).map
    (fun e => yearKey e.date)

/-- DatabaseManager.get_all_income_years: the same query over the income
table. -/
def get_all_income_years (db : DB) : List String :=
  (sortByDateDesc IncomeRow.date (yearReps IncomeRow.date db.income)).map
    (fun e => yearKey e.date)

/-- Python str.capitalize(): first character uppercased, the rest lowercased
(ASCII letters; others unchanged). -/
def pyCapitalize (s : String) : String :=
  match s.data with
  | [] => ""
  | c :: cs => String.mk (c.toUpper :: cs.map Char.toLower)

/-- One accumulation step of a Python defaultdict(float): add v under key k,
creating the key at the end on first touch. -/
def addToTotals (acc : List (String × Rat)) (k : String) (v : Rat) :
    List (String × Rat) :=
  match acc with
  | [] => [(k, v)]
  | (k0, v0) :: rest =>
    if k0 = k then (k0, v0 + v) :: rest else (k0, v0) :: addToTotals rest k v

/-- Reading a defaultdict(float) without inserting: dict.get(k, 0.0). -/
def getTotal (acc : List (String × Rat)) (k : String) : Rat :=
  match acc with
  | [] => 0
  | (k0, v0) :: rest => if k0 = k then v0 else getTotal rest k

/-- The category-totals aggregation shared by generate_pie_chart_filtered and
update_summary_and_budget_display: a defaultdict accumulating each row's
amount under the capitalized category name. -/
def category_totals (es : List Expense) : List (String × Rat) :=
  es.foldl (fun acc e => addToTotals acc (pyCapitalize e.category) e.amount) []

/-- Zero-padded two-digit rendering of a month number (format %02d and
strftime %m). -/
def pad2 (n : Nat) : String := if n < 10 then "0" ++ toString n else toString n

/-- datetime.strftime("%Y-%m") of a parsed date: the year (unpadded, as
str(year) also renders it) and the zero-padded month. -/
def strftimeYM (y m : Nat) : String := toString y ++ "-" ++ pad2 m

/-- The loop body of generate_bar_chart_filtered: parse the row's date; when
the parsed year prints as the selected year, accumulate the amount under the
strftime year-month key.  (The none branch is unreachable when every date is
valid; an invalid date makes strptime raise, which the Option wrapper below
accounts for.) -/
def barStep (selectedYear : String) (acc : List (String × Rat)) (e : Expense) :
    List (String × Rat) :=
  match parseDate e.date with
  | some (y, m, _) =>
    if toString y == selectedYear then addToTotals acc (strftimeYM y m) e.amount
    else acc
  | none => acc

/-- The totals dictionary generate_bar_chart_filtered builds over the fetched
rows. -/
def bar_chart_totals (selectedYear : String) (es : List Expense) :
    List (String × Rat) :=
  es.foldl (barStep selectedYear) []

/-- Does the expense row fall in calendar month m of the year whose string
form is Y?  (The reference predicate the bar-chart buckets are measured
against.) -/
def inYearMonth (Y : String) (m : Nat) (e : Expense) : Bool :=
  match parseDate e.date with
  | some (y, mo, _) => toString y == Y && mo == m
  | none => false

/-- The twelve bucket labels of the monthly bar chart: selected year joined
with months 01 through 12. -/
def monthLabels (selectedYear : String) : List String :=
  (List.range 12).map (fun i => selectedYear ++ "-" ++ pad2 (i + 1))

/-- generate_bar_chart_filtered, data part: the twelve bucket amounts for the
selected year, one per calendar month, absent months defaulting to zero.
Returns none when some row's date fails to parse, modelling the ValueError
datetime.strptime raises in that case (the Python code does not catch it). -/
def generate_bar_chart_amounts (selectedYear : String) (es : List Expense) :
    Option (List Rat) :=
  if es.all (fun e => (parseDate e.date).isSome) then
    some ((monthLabels selectedYear).map (getTotal (bar_chart_totals selectedYear es)))
  else none

/-- A store with one expense tagged A while only category B exists: the shape
on which the rename-collision claim is tested. -/
def dbDup : DB :=
  ⟨[⟨1, "2025-01-01", "A", 10, "x"⟩], [], [], ["B"], 2, 1⟩

/-- A store with one income row whose source strictly contains the word
Salary. -/
def dbInc : DB :=
  ⟨[], [⟨1, "2025-01-05", "MySalaryX", 100, "d"⟩], [], [], 1, 2⟩

/-- A store with one budget row, for exercising the budget lookup. -/
def dbBud : DB :=
  ⟨[], [], [("2025-01", 1000)], [], 1, 1⟩

/-- A store with two expense rows in the Food category. -/
def dbFood : DB :=
  ⟨[⟨1, "2025-01-10", "Food", 250, "Lunch"⟩,
    ⟨2, "2025-01-15", "Food", 150, ""⟩], [], [], ["Food", "Transport"], 3, 1⟩

/-- An empty freshly-created store (no seeded rows). -/
def dbEmpty : DB := ⟨[], [], [], [], 1, 1⟩

/-! ### Basic lemmas about the string comparison and the sort -/

lemma char_toNat_injective {a b : Char} (h : a.toNat = b.toNat) : a = b :=
  Char.ext (UInt32.toNat.inj h)

lemma lexLe_refl : ∀ l : List Char, lexLe l l = true
  | [] => rfl
  | a :: as => by simp [lexLe, lexLe_refl as]

lemma lexLe_total : ∀ a b : List Char, lexLe a b = true ∨ lexLe b a = true
  | [], _ => Or.inl rfl
  | _ :: _, [] => Or.inr rfl
  | a :: as, b :: bs => by
    by_cases h : a = b
    · subst h
      simpa [lexLe] using lexLe_total as bs
    · have hn : a.toNat ≠ b.toNat := fun hc => h (char_toNat_injective hc)
      rcases Nat.lt_or_ge a.toNat b.toNat with hlt | hge
      · left; simp [lexLe, h, hlt]
      · right
        have hne : b ≠ a := fun hc => h hc.symm
        have : b.toNat < a.toNat := lt_of_le_of_ne hge (Ne.symm hn)
        simp [lexLe, hne, this]

lemma lexLe_trans : ∀ a b c : List Char,
    lexLe a b = true → lexLe b c = true → lexLe a c = true
  | [], _, _, _, _ => rfl
  | _ :: _, [], _, h, _ => by simp [lexLe] at h
  | _ :: _, _ :: _, [], _, h => by simp [lexLe] at h
  | a :: as, b :: bs, c :: cs, h1, h2 => by
    by_cases hab : a = b
    · subst hab
      by_cases hac : a = c
      · subst hac
        simp [lexLe] at h1 h2 ⊢
        exact lexLe_trans as bs cs h1 h2
      · simpa [lexLe, hac] using (by simpa [lexLe, hac] using h2)
    · by_cases hbc : b = c
      · subst hbc
        simpa [lexLe, hab] using (by simpa [lexLe, hab] using h1)
      · simp [lexLe, hab] at h1
        simp [lexLe, hbc] at h2
        have hac : a.toNat < c.toNat := Nat.lt_trans h1 h2
        have : a ≠ c := fun hc => absurd (congrArg Char.toNat hc) (Nat.ne_of_lt hac)
        simp [lexLe, this, hac]

lemma dateLe_refl (s : String) : dateLe s s = true := lexLe_refl s.data

lemma dateLe_total (a b : String) : dateLe a b = true ∨ dateLe b a = true :=
  lexLe_total a.data b.data

lemma dateLe_trans {a b c : String} (h1 : dateLe a b = true)
    (h2 : dateLe b c = true) : dateLe a c = true :=
  lexLe_trans a.data b.data c.data h1 h2

lemma sortByDateDesc_perm {α : Type} (f : α → String) (l : List α) :
    (sortByDateDesc f l).Perm l :=
  List.perm_insertionSort _ l

lemma sortByDateDesc_mem {α : Type} (f : α → String) (l : List α) (x : α) :
    x ∈ sortByDateDesc f l ↔ x ∈ l :=
  (sortByDateDesc_perm f l).mem_iff

lemma sortByDateDesc_sorted {α : Type} (f : α → String) (l : List α) :
    List.Sorted (fun a b => dateLe (f b) (f a) = true) (sortByDateDesc f l) := by
  haveI : IsTotal α (fun a b => dateLe (f b) (f a) = true) :=
    ⟨fun a b => dateLe_total (f b) (f a)⟩
  haveI : IsTrans α (fun a b => dateLe (f b) (f a) = true) :=
    ⟨fun _ _ _ h1 h2 => dateLe_trans h2 h1⟩
  exact List.sorted_insertionSort _ l

/-! ### Claim theorems -/

/-- C10: fetch_expenses treats the string "All Years" as a sentinel for its
year filter: for every database state and every combination of the other
filters, calling it with year = "All Years" returns exactly the same rows in
the same order as calling it with no year filter at all. -/
theorem fetch_expenses_all_years_sentinel (db : DB)
    (start_date end_date category month_year keyword : Option String) :
    fetch_expenses db start_date end_date category (some "All Years")
      month_year keyword =
    fetch_expenses db start_date end_date category none month_year keyword := by
  unfold fetch_expenses
  congr 1

/-- C9: updating an expense by an id that no expense row carries still reports
success and leaves every row of the expenses table (and the rest of the store)
unchanged: a zero-row UPDATE is indistinguishable from a successful one. -/
theorem update_expense_missing_id_noop (db : DB) (expense_id : Nat)
    (date category : String) (amount : Rat) (description : String)
    (h : ∀ e ∈ db.expenses, e.id ≠ expense_id) :
    update_expense db expense_id date category amount description =
      (true, db) := by
  unfold update_expense
  have hmap : db.expenses.map (fun e =>
      if e.id = expense_id then
        { e with date := date, category := category, amount := amount,
                 description := description }
      else e) = db.expenses := by
    conv_rhs => rw [← List.map_id db.expenses]
    apply List.map_congr_left
    intro e he
    simp [h e he]
  rw [hmap]

/-- C9 witness: on a concrete store none of whose rows carry id 5, the update
call with id 5 returns success and the identical store. -/
theorem update_expense_missing_id_noop_witness :
    (∀ e ∈ dbFood.expenses, e.id ≠ 5) ∧
    update_expense dbFood 5 "2025-02-01" "Rent" 99 "r" = (true, dbFood) :=
  ⟨by decide, update_expense_missing_id_noop dbFood 5 "2025-02-01" "Rent" 99 "r"
    (by decide)⟩

/-- C6: get_monthly_budget returns 0.0 (with no error signal) for a month_year
with no budget row, and the stored budget_amount when a row exists (month_year
being UNIQUE, keys are assumed pairwise distinct for the positive case). -/
lemma find_budget_eq (l : List (String × Rat)) (m : String) (a : Rat)
    (hmem : (m, a) ∈ l) (hnd : (l.map Prod.fst).Nodup) :
    l.find? (fun b => b.1 == m) = some (m, a) := by
  induction l with
  | nil => simp at hmem
  | cons hd tl ih =>
    rcases List.mem_cons.mp hmem with heq | htl
    · rw [← heq]
      exact List.find?_cons_of_pos _ (by simp)
    · have hne : hd.1 ≠ m := by
        intro hc
        have hmm : m ∈ tl.map Prod.fst := List.mem_map.mpr ⟨(m, a), htl, rfl⟩
        rw [List.map_cons, List.nodup_cons] at hnd
        exact hnd.1 (hc ▸ hmm)
      rw [List.find?_cons_of_neg _ (by simp [hne])]
      exact ih htl (by
        rw [List.map_cons, List.nodup_cons] at hnd
        exact hnd.2)

theorem get_monthly_budget_absent_zero (db : DB) (m : String) :
    ((∀ b ∈ db.budgets, b.1 ≠ m) → get_monthly_budget db m = 0) ∧
    (∀ a : Rat, (m, a) ∈ db.budgets → (db.budgets.map Prod.fst).Nodup →
      get_monthly_budget db m = a) := by
  constructor
  · intro habs
    unfold get_monthly_budget
    have hnone : db.budgets.find? (fun b => b.1 == m) = none := by
      apply List.find?_eq_none.mpr
      intro b hb
      simp [habs b hb]
    rw [hnone]
  · intro a hmem hnd
    unfold get_monthly_budget
    rw [find_budget_eq db.budgets m a hmem hnd]

/-- C6 witness: on a concrete store with one budget row keyed 2025-01, the
lookup for 2025-02 returns 0 and the lookup for 2025-01 returns the stored
amount. -/
theorem get_monthly_budget_absent_zero_witness :
    get_monthly_budget dbBud "2025-02" = 0 ∧
    get_monthly_budget dbBud "2025-01" = 1000 :=
  ⟨(get_monthly_budget_absent_zero dbBud "2025-02").1 (by decide),
   (get_monthly_budget_absent_zero dbBud "2025-01").2 1000 (by decide) (by decide)⟩

/-- C2: delete_category reports success; the category row is removed while all
other category rows survive; no expense row is deleted (the table keeps its
length) and every expense row keeps its id, date, amount and description,
its category rewritten to "Uncategorized" exactly when it equalled the deleted
name; the other tables are untouched.  Both steps happen together in the one
returned state. -/
theorem delete_category_reassigns (db : DB) (c : String) :
    (delete_category db c).1 = true ∧
    (delete_category db c).2.expenses.length = db.expenses.length ∧
    c ∉ (delete_category db c).2.categories ∧
    (∀ n, n ≠ c → (n ∈ (delete_category db c).2.categories ↔ n ∈ db.categories)) ∧
    (∀ i, i < db.expenses.length →
      ∃ e e2, db.expenses[i]? = some e ∧
        (delete_category db c).2.expenses[i]? = some e2 ∧
        e2.id = e.id ∧ e2.date = e.date ∧ e2.amount = e.amount ∧
        e2.description = e.description ∧
        e2.category = (if e.category = c then "Uncategorized" else e.category)) ∧
    (delete_category db c).2.income = db.income ∧
    (delete_category db c).2.budgets = db.budgets := by
  unfold delete_category
  refine ⟨rfl, by simp, ?_, ?_, ?_, rfl, rfl⟩
  · intro hmem
    simp only [List.mem_filter] at hmem
    simp at hmem
  · intro n hn
    simp [List.mem_filter, hn]
  · intro i hi
    have hm : (db.expenses.map (fun e =>
        if e.category = c then { e with category := "Uncategorized" }
        else e))[i]? =
        some (if (db.expenses[i]).category = c
              then { db.expenses[i] with category := "Uncategorized" }
              else db.expenses[i]) := by
      rw [List.getElem?_map, List.getElem?_eq_getElem hi]
      rfl
    refine ⟨db.expenses[i],
      (if (db.expenses[i]).category = c
       then { db.expenses[i] with category := "Uncategorized" }
       else db.expenses[i]),
      List.getElem?_eq_getElem hi, hm, ?_, ?_, ?_, ?_, ?_⟩
    all_goals by_cases hc : (db.expenses[i]).category = c <;> simp [hc]

/-- C2 witness: the concrete deletion of the Food category on a two-row store,
instantiating the theorem. -/
theorem delete_category_reassigns_witness :
    (delete_category dbFood "Food").1 = true ∧
    (delete_category dbFood "Food").2.expenses.length = dbFood.expenses.length ∧
    "Food" ∉ (delete_category dbFood "Food").2.categories ∧
    (∀ n, n ≠ "Food" →
      (n ∈ (delete_category dbFood "Food").2.categories ↔ n ∈ dbFood.categories)) ∧
    (∀ i, i < dbFood.expenses.length →
      ∃ e e2, dbFood.expenses[i]? = some e ∧
        (delete_category dbFood "Food").2.expenses[i]? = some e2 ∧
        e2.id = e.id ∧ e2.date = e.date ∧ e2.amount = e.amount ∧
        e2.description = e.description ∧
        e2.category = (if e.category = "Food" then "Uncategorized" else e.category)) ∧
    (delete_category dbFood "Food").2.income = dbFood.income ∧
    (delete_category dbFood "Food").2.budgets = dbFood.budgets :=
  delete_category_reassigns dbFood "Food"

/-- C3: adding a valid expense and then fetching with no filters returns a row
whose date, category, amount and description equal the inputs; the result is a
permutation of all stored rows and is ordered descending by date (most recent
first). -/
theorem add_then_fetch_roundtrip (db : DB) (date category : String)
    (amount : Rat) (description : String) (hpos : 0 < amount) :
    (∃ e ∈ fetch_expenses (add_expense db date category amount description).2
        none none none none none none,
      e.date = date ∧ e.category = category ∧ e.amount = amount ∧
        e.description = description) ∧
    (fetch_expenses (add_expense db date category amount description).2
        none none none none none none).Perm
      (add_expense db date category amount description).2.expenses ∧
    List.Sorted (fun a b => dateLe b.date a.date = true)
      (fetch_expenses (add_expense db date category amount description).2
        none none none none none none) := by
  have hfilter : ∀ l : List Expense,
      l.filter (expenseMatches none none none none none none) = l := by
    intro l
    apply List.filter_eq_self.mpr
    intro e _
    rfl
  have hperm : (fetch_expenses (add_expense db date category amount description).2
      none none none none none none).Perm
      (add_expense db date category amount description).2.expenses := by
    unfold fetch_expenses
    rw [hfilter]
    exact sortByDateDesc_perm _ _
  refine ⟨?_, hperm, ?_⟩
  · refine ⟨⟨db.nextExpenseId, date, category, amount, description⟩, ?_,
      rfl, rfl, rfl, rfl⟩
    apply hperm.mem_iff.mpr
    unfold add_expense
    simp
  · unfold fetch_expenses
    exact sortByDateDesc_sorted _ _

/-- C3 witness: the concrete roundtrip on the empty store with the Lunch
expense of the specification scenario. -/
theorem add_then_fetch_roundtrip_witness :
    0 < (250 : Rat) ∧
    ((∃ e ∈ fetch_expenses (add_expense dbEmpty "2025-01-10" "Food" 250 "Lunch").2
        none none none none none none,
      e.date = "2025-01-10" ∧ e.category = "Food" ∧ e.amount = 250 ∧
        e.description = "Lunch") ∧
    (fetch_expenses (add_expense dbEmpty "2025-01-10" "Food" 250 "Lunch").2
        none none none none none none).Perm
      (add_expense dbEmpty "2025-01-10" "Food" 250 "Lunch").2.expenses ∧
    List.Sorted (fun a b => dateLe b.date a.date = true)
      (fetch_expenses (add_expense dbEmpty "2025-01-10" "Food" 250 "Lunch").2
        none none none none none none)) :=
  ⟨by norm_num,
   add_then_fetch_roundtrip dbEmpty "2025-01-10" "Food" 250 "Lunch" (by norm_num)⟩

/-- C1 counterexample: on the store dbDup, a category named B (the new name)
already exists, yet update_category A B reports success rather than a
duplicate failure, and it rewrites the expense row tagged A to B — the claimed
"no change on duplicate" behaviour fails because A names no category row. -/
theorem update_category_duplicate_counterexample :
    "B" ∈ dbDup.categories ∧
    (update_category dbDup "A" "B").1 = true ∧
    (update_category dbDup "A" "B").2.expenses.map Expense.category = ["B"] := by
  refine ⟨by decide, by decide, by decide⟩

/-- C1 amended: provided old_name actually names a category row, the rename is
atomic exactly as claimed: when no category named new_name exists the call
succeeds, the categories table contains new_name and no longer old_name, and
every expense row keeps all fields except that a category equal to old_name
now reads new_name (no row added or dropped); when a category named new_name
(distinct from old_name) exists the call fails — reported as the duplicate
case, the only rollback path of the code — and the store is unchanged. -/
theorem update_category_amended (db : DB) (old_name new_name : String)
    (hold : old_name ∈ db.categories) :
    (new_name ∉ db.categories →
      (update_category db old_name new_name).1 = true ∧
      new_name ∈ (update_category db old_name new_name).2.categories ∧
      old_name ∉ (update_category db old_name new_name).2.categories ∧
      (∀ i, i < db.expenses.length →
        ∃ e e2, db.expenses[i]? = some e ∧
          (update_category db old_name new_name).2.expenses[i]? = some e2 ∧
          e2.id = e.id ∧ e2.date = e.date ∧ e2.amount = e.amount ∧
          e2.description = e.description ∧
          e2.category = (if e.category = old_name then new_name else e.category)) ∧
      (update_category db old_name new_name).2.expenses.length =
        db.expenses.length) ∧
    (new_name ∈ db.categories → old_name ≠ new_name →
      update_category db old_name new_name = (false, db)) := by
  constructor
  · intro hnew
    have hcond : ¬(old_name ∈ db.categories ∧ new_name ∈ db.categories ∧
        old_name ≠ new_name) := by
      rintro ⟨-, h2, -⟩
      exact hnew h2
    unfold update_category
    rw [if_neg hcond]
    refine ⟨rfl, ?_, ?_, ?_, by simp⟩
    · exact List.mem_map.mpr ⟨old_name, hold, by simp⟩
    · intro hmem
      rcases List.mem_map.mp hmem with ⟨n, hn, hfn⟩
      by_cases hno : n = old_name
      · rw [if_pos hno] at hfn
        exact hnew (hfn ▸ hold)
      · rw [if_neg hno] at hfn
        exact hno hfn
    · intro i hi
      have hm : (db.expenses.map (fun e =>
          if e.category = old_name then { e with category := new_name }
          else e))[i]? =
          some (if (db.expenses[i]).category = old_name
                then { db.expenses[i] with category := new_name }
                else db.expenses[i]) := by
        rw [List.getElem?_map, List.getElem?_eq_getElem hi]
        rfl
      refine ⟨db.expenses[i],
        (if (db.expenses[i]).category = old_name
         then { db.expenses[i] with category := new_name }
         else db.expenses[i]),
        List.getElem?_eq_getElem hi, hm, ?_, ?_, ?_, ?_, ?_⟩
      all_goals by_cases hc : (db.expenses[i]).category = old_name <;> simp [hc]
  · intro h1 h2
    unfold update_category
    rw [if_pos ⟨hold, h1, h2⟩]

/-- C1 witness: both branches of the amended statement instantiated on a
concrete store holding categories Food and Transport: renaming Food to Dining
(fresh) succeeds with full cascade, and the duplicate branch applies to
renaming Food to Transport. -/
theorem update_category_amended_witness :
    "Food" ∈ dbFood.categories ∧
    ("Dining" ∉ dbFood.categories →
      (update_category dbFood "Food" "Dining").1 = true ∧
      "Dining" ∈ (update_category dbFood "Food" "Dining").2.categories ∧
      "Food" ∉ (update_category dbFood "Food" "Dining").2.categories ∧
      (∀ i, i < dbFood.expenses.length →
        ∃ e e2, dbFood.expenses[i]? = some e ∧
          (update_category dbFood "Food" "Dining").2.expenses[i]? = some e2 ∧
          e2.id = e.id ∧ e2.date = e.date ∧ e2.amount = e.amount ∧
          e2.description = e.description ∧
          e2.category = (if e.category = "Food" then "Dining" else e.category)) ∧
      (update_category dbFood "Food" "Dining").2.expenses.length =
        dbFood.expenses.length) ∧
    ("Transport" ∈ dbFood.categories → "Food" ≠ "Transport" →
      update_category dbFood "Food" "Transport" = (false, dbFood)) :=
  ⟨by decide,
   (update_category_amended dbFood "Food" "Dining" (by decide)).1,
   (update_category_amended dbFood "Food" "Transport" (by decide)).2⟩

/-- C8 counterexample: no income row of dbInc has source equal to "Salary",
yet fetching with the source filter "Salary" returns the row whose source is
"MySalaryX" — the filter is not the equality predicate the claim states. -/
theorem fetch_income_substring_counterexample :
    (∀ e ∈ dbInc.income, e.source ≠ "Salary") ∧
    fetch_income dbInc none none (some "Salary") none none none =
      [⟨1, "2025-01-05", "MySalaryX", 100, "d"⟩] :=
  ⟨by decide, by decide⟩

/-- C8 amended: the source filter of fetch_income matches by case-insensitive
substring containment (SQL LIKE with the keyword wrapped in percent signs, no
sentinel value), and results are ordered descending by date: a row is returned
iff it is an income row whose source contains the filter string. -/
theorem fetch_income_source_like (db : DB) (s : String) (hs : s ≠ "") :
    (∀ e, e ∈ fetch_income db none none (some s) none none none ↔
      e ∈ db.income ∧ likeContains e.source s = true) ∧
    List.Sorted (fun a b => dateLe b.date a.date = true)
      (fetch_income db none none (some s) none none none) := by
  constructor
  · intro e
    unfold fetch_income
    rw [sortByDateDesc_mem, List.mem_filter]
    have hp : incomeMatches none none (some s) none none none e =
        likeContains e.source s := by
      unfold incomeMatches
      have hb : (s == "") = false := beq_eq_false_iff_ne.mpr hs
      simp [bne, hb]
    rw [hp]
  · unfold fetch_income
    exact sortByDateDesc_sorted _ _

/-- C8 witness: the amended source-filter semantics instantiated on the
concrete store dbInc with the filter string Salary. -/
theorem fetch_income_source_like_witness :
    ("Salary" : String) ≠ "" ∧
    ((∀ e, e ∈ fetch_income dbInc none none (some "Salary") none none none ↔
      e ∈ dbInc.income ∧ likeContains e.source "Salary" = true) ∧
    List.Sorted (fun a b => dateLe b.date a.date = true)
      (fetch_income dbInc none none (some "Salary") none none none)) :=
  ⟨by decide, fetch_income_source_like dbInc "Salary" (by decide)⟩

/-! ### Defaultdict accumulation lemmas -/

lemma getTotal_addToTotals (acc : List (String × Rat)) (k : String) (v : Rat)
    (k0 : String) :
    getTotal (addToTotals acc k v) k0 =
      getTotal acc k0 + (if k = k0 then v else 0) := by
  induction acc with
  | nil =>
    by_cases h : k = k0 <;> simp [addToTotals, getTotal, h]
  | cons hd tl ih =>
    rcases hd with ⟨k1, v1⟩
    by_cases h1 : k1 = k
    · subst h1
      by_cases h0 : k1 = k0 <;> simp [addToTotals, getTotal, h0, add_assoc]
    · by_cases h0 : k1 = k0
      · subst h0
        have hk : k ≠ k1 := fun hc => h1 hc.symm
        simp [addToTotals, getTotal, h1, hk]
      · simp [addToTotals, getTotal, h1, h0, ih]

lemma sum_addToTotals (acc : List (String × Rat)) (k : String) (v : Rat) :
    ((addToTotals acc k v).map Prod.snd).sum = (acc.map Prod.snd).sum + v := by
  induction acc with
  | nil => simp [addToTotals]
  | cons hd tl ih =>
    rcases hd with ⟨k1, v1⟩
    by_cases h1 : k1 = k <;> simp [addToTotals, h1, ih] <;> ring

lemma keys_addToTotals (acc : List (String × Rat)) (k : String) (v : Rat)
    (k0 : String) :
    k0 ∈ (addToTotals acc k v).map Prod.fst ↔
      k0 ∈ acc.map Prod.fst ∨ k0 = k := by
  induction acc with
  | nil => simp [addToTotals]
  | cons hd tl ih =>
    rcases hd with ⟨k1, v1⟩
    by_cases h1 : k1 = k
    · subst h1
      by_cases h0 : k0 = k1 <;> simp [addToTotals, h0]
    · simp [addToTotals, h1, ih, or_assoc]

lemma keysNodup_addToTotals (acc : List (String × Rat)) (k : String) (v : Rat)
    (h : (acc.map Prod.fst).Nodup) :
    ((addToTotals acc k v).map Prod.fst).Nodup := by
  induction acc with
  | nil => simp [addToTotals]
  | cons hd tl ih =>
    rcases hd with ⟨k1, v1⟩
    rw [List.map_cons, List.nodup_cons] at h
    by_cases h1 : k1 = k
    · subst h1
      simpa [addToTotals] using h
    · rw [show addToTotals ((k1, v1) :: tl) k v =
          (k1, v1) :: addToTotals tl k v by simp [addToTotals, h1]]
      rw [List.map_cons, List.nodup_cons]
      refine ⟨?_, ih h.2⟩
      rw [keys_addToTotals]
      rintro (hmem | heq)
      · exact h.1 hmem
      · exact h1 heq

/-! ### Category-totals fold lemmas (claim C4) -/

lemma category_totals_getTotal_go (es : List Expense)
    (acc : List (String × Rat)) (k : String) :
    getTotal (es.foldl
      (fun acc e => addToTotals acc (pyCapitalize e.category) e.amount) acc) k =
    getTotal acc k +
      ((es.filter (fun e => pyCapitalize e.category == k)).map
        Expense.amount).sum := by
  induction es generalizing acc with
  | nil => simp
  | cons e tl ih =>
    rw [List.foldl_cons, ih, getTotal_addToTotals]
    by_cases h : pyCapitalize e.category = k
    · simp [List.filter_cons, h]
      ring
    · simp [List.filter_cons, h]

lemma category_totals_sum_go (es : List Expense)
    (acc : List (String × Rat)) :
    ((es.foldl
      (fun acc e => addToTotals acc (pyCapitalize e.category) e.amount)
      acc).map Prod.snd).sum =
    (acc.map Prod.snd).sum + (es.map Expense.amount).sum := by
  induction es generalizing acc with
  | nil => simp
  | cons e tl ih =>
    rw [List.foldl_cons, ih, sum_addToTotals]
    simp
    ring

lemma category_totals_keys_go (es : List Expense)
    (acc : List (String × Rat)) (k : String) :
    k ∈ (es.foldl
      (fun acc e => addToTotals acc (pyCapitalize e.category) e.amount)
      acc).map Prod.fst ↔
    k ∈ acc.map Prod.fst ∨ ∃ e ∈ es, pyCapitalize e.category = k := by
  induction es generalizing acc with
  | nil => simp
  | cons e tl ih =>
    rw [List.foldl_cons, ih, keys_addToTotals]
    constructor
    · rintro ((hmem | heq) | ⟨f, hf, hfk⟩)
      · exact Or.inl hmem
      · exact Or.inr ⟨e, List.mem_cons_self e tl, heq.symm⟩
      · exact Or.inr ⟨f, List.mem_cons_of_mem e hf, hfk⟩
    · rintro (hmem | ⟨f, hf, hfk⟩)
      · exact Or.inl (Or.inl hmem)
      · rcases List.mem_cons.mp hf with heq | htl
        · subst heq
          exact Or.inl (Or.inr hfk.symm)
        · exact Or.inr ⟨f, htl, hfk⟩

lemma category_totals_keysNodup_go (es : List Expense)
    (acc : List (String × Rat)) (h : (acc.map Prod.fst).Nodup) :
    ((es.foldl
      (fun acc e => addToTotals acc (pyCapitalize e.category) e.amount)
      acc).map Prod.fst).Nodup := by
  induction es generalizing acc with
  | nil => exact h
  | cons e tl ih =>
    rw [List.foldl_cons]
    exact ih _ (keysNodup_addToTotals _ _ _ h)

/-! ### Case folding (claim C4, merge clause) -/

lemma toNat_ofNat_valid {n : Nat} (h : n ≤ 122) : (Char.ofNat n).toNat = n := by
  have hv : n.isValidChar := Or.inl (by omega)
  simp [Char.ofNat, hv, Char.ofNatAux, Char.toNat, UInt32.toNat,
    BitVec.toNat_ofNatLt]

lemma toUpper_eq_of_toLower_eq {a b : Char} (h : a.toLower = b.toLower) :
    a.toUpper = b.toUpper := by
  unfold Char.toLower at h
  unfold Char.toUpper
  by_cases ha : a.toNat ≥ 65 ∧ a.toNat ≤ 90
  · by_cases hb : b.toNat ≥ 65 ∧ b.toNat ≤ 90
    · rw [if_pos ha, if_pos hb] at h
      have h2 := congrArg Char.toNat h
      rw [toNat_ofNat_valid (by omega), toNat_ofNat_valid (by omega)] at h2
      have hab : a = b := char_toNat_injective (by omega)
      rw [hab]
    · rw [if_pos ha, if_neg hb] at h
      have h2 := congrArg Char.toNat h
      rw [toNat_ofNat_valid (by omega)] at h2
      rw [if_neg (by omega), if_pos (by omega)]
      have h3 : b.toNat - 32 = a.toNat := by omega
      rw [h3, Char.ofNat_toNat]
  · by_cases hb : b.toNat ≥ 65 ∧ b.toNat ≤ 90
    · rw [if_neg ha, if_pos hb] at h
      have h2 := congrArg Char.toNat h
      rw [toNat_ofNat_valid (by omega)] at h2
      rw [if_pos (by omega), if_neg (by omega)]
      have h3 : a.toNat - 32 = b.toNat := by omega
      rw [h3, Char.ofNat_toNat]
    · rw [if_neg ha, if_neg hb] at h
      rw [h]

lemma pyCapitalize_eq_of_lower_eq (s t : String)
    (h : s.data.map Char.toLower = t.data.map Char.toLower) :
    pyCapitalize s = pyCapitalize t := by
  unfold pyCapitalize
  cases hs : s.data with
  | nil =>
    cases ht : t.data with
    | nil => rfl
    | cons d ds =>
      rw [hs, ht] at h
      simp at h
  | cons c cs =>
    cases ht : t.data with
    | nil =>
      rw [hs, ht] at h
      simp at h
    | cons d ds =>
      rw [hs, ht] at h
      simp only [List.map_cons, List.cons.injEq] at h
      have h1 : c.toUpper = d.toUpper := toUpper_eq_of_toLower_eq h.1
      show String.mk (c.toUpper :: cs.map Char.toLower) =
        String.mk (d.toUpper :: ds.map Char.toLower)
      rw [h1, h.2]

/-- C4: the category-totals aggregation groups rows by the capitalized form of
their category and sums their amounts — each group total is the sum of the
amounts of exactly the rows whose capitalized category is the group key, the
keys are pairwise distinct and are exactly the capitalized categories present,
the sum of the group totals equals the sum of amount over all rows (a
partition: nothing dropped, nothing double-counted), and two category strings
that differ only in letter case receive the same group key, hence are merged
into one group. -/
theorem category_totals_partition (es : List Expense) :
    (∀ k, getTotal (category_totals es) k =
      ((es.filter (fun e => pyCapitalize e.category == k)).map
        Expense.amount).sum) ∧
    ((category_totals es).map Prod.snd).sum = (es.map Expense.amount).sum ∧
    ((category_totals es).map Prod.fst).Nodup ∧
    (∀ k, k ∈ (category_totals es).map Prod.fst ↔
      ∃ e ∈ es, pyCapitalize e.category = k) ∧
    (∀ s t : String, s.data.map Char.toLower = t.data.map Char.toLower →
      pyCapitalize s = pyCapitalize t) := by
  refine ⟨?_, ?_, ?_, ?_, pyCapitalize_eq_of_lower_eq⟩
  · intro k
    unfold category_totals
    rw [category_totals_getTotal_go]
    simp [getTotal]
  · unfold category_totals
    rw [category_totals_sum_go]
    simp
  · unfold category_totals
    exact category_totals_keysNodup_go es [] (by simp)
  · intro k
    unfold category_totals
    rw [category_totals_keys_go]
    simp

/-! ### Monthly bar chart (claim C5) -/

lemma pad2_inj12 : ∀ m1 < 13, ∀ m2 < 13, pad2 m1 = pad2 m2 → m1 = m2 := by
  decide

lemma parseDate_bounds {s : String} {y mo da : Nat}
    (h : parseDate s = some (y, mo, da)) : 1 ≤ mo ∧ mo ≤ 12 := by
  unfold parseDate at h
  split at h
  · split at h
    · dsimp only at h
      split at h
      · rename_i hc
        simp only [Bool.and_eq_true, decide_eq_true_eq] at hc
        injection h with h2
        rw [Prod.mk.injEq, Prod.mk.injEq] at h2
        obtain ⟨-, hmo, -⟩ := h2
        omega
      · exact absurd h (by simp)
    · exact absurd h (by simp)
  · exact absurd h (by simp)

lemma string_data_append (a b : String) : (a ++ b).data = a.data ++ b.data := by
  cases a
  cases b
  rfl

lemma append_left_cancel_str {a b c : String} (h : a ++ b = a ++ c) : b = c := by
  have h2 := congrArg String.data h
  rw [string_data_append, string_data_append] at h2
  have h3 := List.append_cancel_left h2
  cases b
  cases c
  exact congrArg String.mk h3

lemma strftimeYM_eq_label_iff {y m1 m : Nat} {Y : String} (hy : toString y = Y)
    (hm1a : 1 ≤ m1) (hm1b : m1 ≤ 12) (hma : 1 ≤ m) (hmb : m ≤ 12) :
    strftimeYM y m1 = Y ++ "-" ++ pad2 m ↔ m1 = m := by
  unfold strftimeYM
  rw [hy]
  constructor
  · intro h
    exact pad2_inj12 m1 (by omega) m (by omega) (append_left_cancel_str h)
  · intro h
    rw [h]

lemma monthLabels_getElem (Y : String) (m : Nat) (h1 : 1 ≤ m) (h2 : m ≤ 12) :
    (monthLabels Y)[m - 1]? = some (Y ++ "-" ++ pad2 m) := by
  unfold monthLabels
  rw [List.getElem?_map, List.getElem?_range (show m - 1 < 12 by omega)]
  show some (Y ++ "-" ++ pad2 (m - 1 + 1)) = some (Y ++ "-" ++ pad2 m)
  rw [Nat.sub_add_cancel h1]

lemma barStep_fold_getTotal (Y : String) (m : Nat) (hma : 1 ≤ m)
    (hmb : m ≤ 12) (es : List Expense) :
    ∀ acc : List (String × Rat),
      (∀ e ∈ es, (parseDate e.date).isSome = true) →
      getTotal (es.foldl (barStep Y) acc) (Y ++ "-" ++ pad2 m) =
      getTotal acc (Y ++ "-" ++ pad2 m) +
        ((es.filter (inYearMonth Y m)).map Expense.amount).sum := by
  induction es with
  | nil =>
    intro acc _
    simp
  | cons e tl ih =>
    intro acc hval
    obtain ⟨⟨y, mo, da⟩, hp⟩ :=
      Option.isSome_iff_exists.mp (hval e (List.mem_cons_self e tl))
    have hbounds := parseDate_bounds hp
    have htl : ∀ f ∈ tl, (parseDate f.date).isSome = true :=
      fun f hf => hval f (List.mem_cons_of_mem e hf)
    rw [List.foldl_cons, List.filter_cons]
    by_cases hy : toString y = Y
    · have hyb : (toString y == Y) = true := beq_iff_eq.mpr hy
      by_cases hm : mo = m
      · subst hm
        have hstep : barStep Y acc e =
            addToTotals acc (strftimeYM y mo) e.amount := by
          simp [barStep, hp, hyb]
        have hcond : inYearMonth Y mo e = true := by
          simp [inYearMonth, hp, hy]
        rw [hstep, hcond, ih _ htl, getTotal_addToTotals]
        have hkey : strftimeYM y mo = Y ++ "-" ++ pad2 mo := by
          unfold strftimeYM
          rw [hy]
        rw [if_pos hkey]
        simp
        ring
      · have hstep : barStep Y acc e =
            addToTotals acc (strftimeYM y mo) e.amount := by
          simp [barStep, hp, hyb]
        have hcond : inYearMonth Y m e = false := by
          simp [inYearMonth, hp, hm]
        rw [hstep, hcond, ih _ htl, getTotal_addToTotals]
        have hkey : strftimeYM y mo ≠ Y ++ "-" ++ pad2 m := fun hc =>
          hm ((strftimeYM_eq_label_iff hy hbounds.1 hbounds.2 hma hmb).mp hc)
        rw [if_neg hkey]
        simp
    · have hyb : (toString y == Y) = false := beq_eq_false_iff_ne.mpr hy
      have hstep : barStep Y acc e = acc := by
        simp [barStep, hp, hyb]
      have hcond : inYearMonth Y m e = false := by
        simp [inYearMonth, hp, hy]
      rw [hstep, hcond, ih _ htl]
      simp

/-- C5: for every year string Y and every list of expense rows all of whose
dates parse, the monthly bar-chart series for Y is produced (no strptime
error), has exactly 12 buckets for months 01 through 12, and the bucket of
month m equals the sum of the amounts of exactly the rows dated in month m of
year Y — 0 when no such row exists, since the sum over the empty filter is
empty. -/
theorem bar_chart_twelve_buckets (Y : String) (es : List Expense)
    (hval : ∀ e ∈ es, validDate e.date = true) :
    ∃ l, generate_bar_chart_amounts Y es = some l ∧ l.length = 12 ∧
      ∀ m, 1 ≤ m → m ≤ 12 →
        l[m - 1]? =
          some (((es.filter (inYearMonth Y m)).map Expense.amount).sum) := by
  have hval2 : ∀ e ∈ es, (parseDate e.date).isSome = true := hval
  have hall : es.all (fun e => (parseDate e.date).isSome) = true :=
    List.all_eq_true.mpr hval2
  refine ⟨(monthLabels Y).map (getTotal (bar_chart_totals Y es)), ?_, by
    simp [monthLabels], ?_⟩
  · unfold generate_bar_chart_amounts
    rw [if_pos hall]
  · intro m hm1 hm2
    rw [List.getElem?_map, monthLabels_getElem Y m hm1 hm2]
    show some (getTotal (bar_chart_totals Y es) (Y ++ "-" ++ pad2 m)) = _
    unfold bar_chart_totals
    rw [barStep_fold_getTotal Y m hm1 hm2 es [] hval2]
    simp [getTotal]

/-- C5 witness: the two January-2025 Food expenses of the store dbFood all
have valid dates, and the theorem instantiates on them for the year 2025. -/
theorem bar_chart_twelve_buckets_witness :
    (∀ e ∈ dbFood.expenses, validDate e.date = true) ∧
    (∃ l, generate_bar_chart_amounts "2025" dbFood.expenses = some l ∧
      l.length = 12 ∧
      ∀ m, 1 ≤ m → m ≤ 12 →
        l[m - 1]? =
          some (((dbFood.expenses.filter (inYearMonth "2025" m)).map
            Expense.amount).sum)) :=
  ⟨by decide, bar_chart_twelve_buckets "2025" dbFood.expenses (by decide)⟩

/-! ### Distinct years (claim C7) -/

lemma lexLe_take : ∀ (n : Nat) (a b : List Char), lexLe a b = true →
    lexLe (a.take n) (b.take n) = true
  | _, [], _, _ => by simp [lexLe]
  | _, _ :: _, [], h => by simp [lexLe] at h
  | 0, _ :: _, _ :: _, _ => rfl
  | n + 1, a :: as, b :: bs, h => by
    by_cases hab : a = b
    · subst hab
      simp only [lexLe, if_pos rfl] at h
      simp only [List.take_succ_cons, lexLe, if_pos rfl]
      exact lexLe_take n as bs h
    · simp only [lexLe, if_neg hab] at h
      simp only [List.take_succ_cons, lexLe, if_neg hab]
      exact h

lemma dateLe_yearKey {a b : String} (h : dateLe a b = true) :
    dateLe (yearKey a) (yearKey b) = true :=
  lexLe_take 4 a.data b.data h

lemma yearStep_subset {α : Type} (f : α → String) (acc : List α) (e x : α)
    (h : x ∈ yearStep f acc e) : x ∈ acc ∨ x = e := by
  unfold yearStep at h
  split at h
  · exact Or.inl h
  · rcases List.mem_append.mp h with h1 | h1
    · exact Or.inl h1
    · exact Or.inr (List.mem_singleton.mp h1)

lemma yearStep_superset {α : Type} (f : α → String) (acc : List α) (e x : α)
    (h : x ∈ acc) : x ∈ yearStep f acc e := by
  unfold yearStep
  split
  · exact h
  · exact List.mem_append_left _ h

lemma yearReps_fold_mem {α : Type} (f : α → String) :
    ∀ (l : List α) (acc : List α) (x : α),
      x ∈ l.foldl (yearStep f) acc → x ∈ acc ∨ x ∈ l := by
  intro l
  induction l with
  | nil =>
    intro acc x h
    exact Or.inl h
  | cons e tl ih =>
    intro acc x h
    rw [List.foldl_cons] at h
    rcases ih (yearStep f acc e) x h with h1 | h1
    · rcases yearStep_subset f acc e x h1 with h2 | h2
      · exact Or.inl h2
      · exact Or.inr (h2 ▸ List.mem_cons_self e tl)
    · exact Or.inr (List.mem_cons_of_mem e h1)

lemma yearReps_fold_cover {α : Type} (f : α → String) :
    ∀ (l : List α) (acc : List α) (y : String),
      ((∃ a ∈ acc, yearKey (f a) = y) ∨ ∃ e ∈ l, yearKey (f e) = y) →
      ∃ r ∈ l.foldl (yearStep f) acc, yearKey (f r) = y := by
  intro l
  induction l with
  | nil =>
    intro acc y h
    rcases h with h | h
    · exact h
    · simp at h
  | cons e tl ih =>
    intro acc y h
    rw [List.foldl_cons]
    apply ih
    rcases h with ⟨a, ha, hay⟩ | ⟨g, hg, hgy⟩
    · exact Or.inl ⟨a, yearStep_superset f acc e a ha, hay⟩
    · rcases List.mem_cons.mp hg with heq | htl
      · subst heq
        by_cases hany : acc.any (fun r => yearKey (f r) == yearKey (f g)) = true
        · rcases List.any_eq_true.mp hany with ⟨r, hr, hrk⟩
          refine Or.inl ⟨r, yearStep_superset f acc g r hr, ?_⟩
          rw [beq_iff_eq.mp hrk, hgy]
        · refine Or.inl ⟨g, ?_, hgy⟩
          unfold yearStep
          rw [if_neg hany]
          exact List.mem_append_right _ (List.mem_singleton_self g)
      · exact Or.inr ⟨g, htl, hgy⟩

lemma yearReps_fold_pairwise {α : Type} (f : α → String) :
    ∀ (l : List α) (acc : List α),
      acc.Pairwise (fun a b => yearKey (f a) ≠ yearKey (f b)) →
      (l.foldl (yearStep f) acc).Pairwise
        (fun a b => yearKey (f a) ≠ yearKey (f b)) := by
  intro l
  induction l with
  | nil =>
    intro acc h
    exact h
  | cons e tl ih =>
    intro acc h
    rw [List.foldl_cons]
    apply ih
    unfold yearStep
    split
    · exact h
    · rename_i hany
      rw [List.pairwise_append]
      refine ⟨h, List.pairwise_singleton _ _, ?_⟩
      intro a ha b hb
      rw [List.mem_singleton.mp hb]
      have := List.any_eq_false.mp (eq_false_of_ne_true hany) a ha
      simpa using this

lemma distinct_years_desc {α : Type} (f : α → String) (l : List α) :
    ((sortByDateDesc f (yearReps f l)).map (fun e => yearKey (f e))).Nodup ∧
    List.Sorted (fun y1 y2 => dateLe y2 y1 = true)
      ((sortByDateDesc f (yearReps f l)).map (fun e => yearKey (f e))) ∧
    ∀ y, y ∈ (sortByDateDesc f (yearReps f l)).map (fun e => yearKey (f e)) ↔
      ∃ e ∈ l, yearKey (f e) = y := by
  have hpair : (yearReps f l).Pairwise
      (fun a b => yearKey (f a) ≠ yearKey (f b)) :=
    yearReps_fold_pairwise f l [] (List.Pairwise.nil)
  have hperm := sortByDateDesc_perm f (yearReps f l)
  have hpair2 : (sortByDateDesc f (yearReps f l)).Pairwise
      (fun a b => yearKey (f a) ≠ yearKey (f b)) :=
    (hperm.pairwise_iff (fun h => Ne.symm h)).mpr hpair
  refine ⟨?_, ?_, ?_⟩
  · exact List.pairwise_map.mpr hpair2
  · have hsorted := sortByDateDesc_sorted f (yearReps f l)
    exact List.pairwise_map.mpr (hsorted.imp (fun h => dateLe_yearKey h))
  · intro y
    rw [List.mem_map]
    constructor
    · rintro ⟨r, hr, hry⟩
      have hr2 := hperm.mem_iff.mp hr
      rcases yearReps_fold_mem f l [] r hr2 with h | h
      · simp at h
      · exact ⟨r, h, hry⟩
    · rintro ⟨e, he, hey⟩
      obtain ⟨r, hr, hry⟩ :=
        yearReps_fold_cover f l [] y (Or.inr ⟨e, he, hey⟩)
      exact ⟨r, hperm.mem_iff.mpr hr, hry⟩

/-- C7: get_all_expense_years and get_all_income_years each return the years
appearing in the date column of their table (the zero-padded four-character
year of each stored date), with no year repeated and sorted descending; the
valid-date hypotheses reflect that STRFTIME reads the year off well-formed
dates. -/
theorem all_years_distinct_desc (db : DB)
    (hexp : ∀ e ∈ db.expenses, validDate e.date = true)
    (hinc : ∀ e ∈ db.income, validDate e.date = true) :
    ((get_all_expense_years db).Nodup ∧
     List.Sorted (fun y1 y2 => dateLe y2 y1 = true) (get_all_expense_years db) ∧
     (∀ y, y ∈ get_all_expense_years db ↔
        ∃ e ∈ db.expenses, yearKey e.date = y)) ∧
    ((get_all_income_years db).Nodup ∧
     List.Sorted (fun y1 y2 => dateLe y2 y1 = true) (get_all_income_years db) ∧
     (∀ y, y ∈ get_all_income_years db ↔
        ∃ e ∈ db.income, yearKey e.date = y)) :=
  ⟨distinct_years_desc Expense.date db.expenses,
   distinct_years_desc IncomeRow.date db.income⟩

/-- C7 witness: the year lists of the concrete store dbFood (one expense year,
no income rows), instantiating the theorem. -/
theorem all_years_distinct_desc_witness :
    (∀ e ∈ dbFood.expenses, validDate e.date = true) ∧
    (∀ e ∈ dbFood.income, validDate e.date = true) ∧
    (((get_all_expense_years dbFood).Nodup ∧
      List.Sorted (fun y1 y2 => dateLe y2 y1 = true)
        (get_all_expense_years dbFood) ∧
      (∀ y, y ∈ get_all_expense_years dbFood ↔
         ∃ e ∈ dbFood.expenses, yearKey e.date = y)) ∧
     ((get_all_income_years dbFood).Nodup ∧
      List.Sorted (fun y1 y2 => dateLe y2 y1 = true)
        (get_all_income_years dbFood) ∧
      (∀ y, y ∈ get_all_income_years dbFood ↔
         ∃ e ∈ dbFood.income, yearKey e.date = y))) :=
  ⟨by decide, by decide,
   all_years_distinct_desc dbFood (by decide) (by decide)⟩

end RupeeOne
